import Mathlib

/-!
Verification of the interactive conversion session workflow of XML-Bridge
(the client-side class InteractiveConverter in the repository file that
defines it, referred to as interactive.js).

The embedding is shallow: the mutable fields of the InteractiveConverter
instance together with the DOM elements it reads and writes become an
explicit record ConverterState; each async method becomes a pure function
from the current state and the responses the remote resolver would give to
the new state paired with the list of HTTP requests the method issues.
JavaScript JSON values are modelled by the inductive type Json, with JSON
numbers modelled as integers (the sessions under study exchange integer
sub-values; floating point is outside the model).  JSON.stringify and
JSON.parse are modelled by jsonChars and jsonParse over the compact
grammar that JSON.stringify emits: no insignificant whitespace, string
escapes for quote, backslash, newline and tab (the control-character
u-escapes JSON.stringify would produce for other control characters are
outside the model), and integer numerals.
-/

/-- A JSON value as exchanged with the remote resolver.  Numbers are
modelled as integers. -/
inductive Json where
  | null : Json
  | bool (b : Bool) : Json
  | num (n : Int) : Json
  | str (s : String) : Json
  | arr (elems : List Json) : Json
  | obj (fields : List (String × Json)) : Json

mutual
/-- Structural boolean equality on Json values (field by field, in order). -/
def jsonBEq : Json → Json → Bool
  | .null, .null => true
  | .bool a, .bool b => a == b
  | .num a, .num b => a == b
  | .str a, .str b => a == b
  | .arr xs, .arr ys => jsonListBEq xs ys
  | .obj xs, .obj ys => jsonFieldsBEq xs ys
  | _, _ => false

def jsonListBEq : List Json → List Json → Bool
  | [], [] => true
  | x :: xs, y :: ys => jsonBEq x y && jsonListBEq xs ys
  | _, _ => false

def jsonFieldsBEq : List (String × Json) → List (String × Json) → Bool
  | [], [] => true
  | (k1, v1) :: xs, (k2, v2) :: ys => k1 == k2 && jsonBEq v1 v2 && jsonFieldsBEq xs ys
  | _, _ => false
end

mutual
theorem jsonBEq_iff : ∀ a b : Json, jsonBEq a b = true ↔ a = b
  | .null, .null => by simp [jsonBEq]
  | .bool x, .bool y => by simp [jsonBEq]
  | .num x, .num y => by simp [jsonBEq]
  | .str x, .str y => by simp [jsonBEq]
  | .arr xs, .arr ys => by simp [jsonBEq, jsonListBEq_iff xs ys]
  | .obj xs, .obj ys => by simp [jsonBEq, jsonFieldsBEq_iff xs ys]
  | .null, .bool _ | .null, .num _ | .null, .str _ | .null, .arr _ | .null, .obj _
  | .bool _, .null | .bool _, .num _ | .bool _, .str _ | .bool _, .arr _ | .bool _, .obj _
  | .num _, .null | .num _, .bool _ | .num _, .str _ | .num _, .arr _ | .num _, .obj _
  | .str _, .null | .str _, .bool _ | .str _, .num _ | .str _, .arr _ | .str _, .obj _
  | .arr _, .null | .arr _, .bool _ | .arr _, .num _ | .arr _, .str _ | .arr _, .obj _
  | .obj _, .null | .obj _, .bool _ | .obj _, .num _ | .obj _, .str _ | .obj _, .arr _ => by
      simp [jsonBEq]

theorem jsonListBEq_iff : ∀ xs ys : List Json, jsonListBEq xs ys = true ↔ xs = ys
  | [], [] => by simp [jsonListBEq]
  | x :: xs, y :: ys => by
      simp [jsonListBEq, jsonBEq_iff x y, jsonListBEq_iff xs ys]
  | [], _ :: _ => by simp [jsonListBEq]
  | _ :: _, [] => by simp [jsonListBEq]

theorem jsonFieldsBEq_iff : ∀ xs ys : List (String × Json), jsonFieldsBEq xs ys = true ↔ xs = ys
  | [], [] => by simp [jsonFieldsBEq]
  | (k1, v1) :: xs, (k2, v2) :: ys => by
      simp [jsonFieldsBEq, jsonBEq_iff v1 v2, jsonFieldsBEq_iff xs ys, and_assoc]
  | [], _ :: _ => by simp [jsonFieldsBEq]
  | _ :: _, [] => by simp [jsonFieldsBEq]
end

instance : DecidableEq Json := fun a b => decidable_of_iff _ (jsonBEq_iff a b)

/-- Worker for decimal printing, structurally recursive on a fuel bound so
that the kernel can evaluate it. -/
def natToCharsAux : Nat → Nat → List Char
  | 0, _ => []
  | fuel + 1, n =>
    if n < 10 then [Nat.digitChar n]
    else natToCharsAux fuel (n / 10) ++ [Nat.digitChar (n % 10)]

/-- Decimal digits of a natural number, most significant first, as the
JavaScript runtime prints them. -/
def natToChars (n : Nat) : List Char := natToCharsAux (n + 1) n

/-- Decimal rendering of an integer, as the JavaScript runtime prints it. -/
def intChars : Int → List Char
  | .ofNat m => natToChars m
  | .negSucc m => '-' :: natToChars (m + 1)

/-- JSON string escaping for one character, as JSON.stringify emits it for
the character classes covered by the model. -/
def escapeChar (c : Char) : List Char :=
  if c = '\"' then ['\\', '\"']
  else if c = '\\' then ['\\', '\\']
  else if c = '\n' then ['\\', 'n']
  else if c = '\t' then ['\\', 't']
  else [c]

def escapeChars : List Char → List Char
  | [] => []
  | c :: cs => escapeChar c ++ escapeChars cs

/-- A JSON string literal: quote, escaped body, quote. -/
def strChars (s : String) : List Char :=
  '\"' :: escapeChars s.toList ++ ['\"']

mutual
/-- Characters of the compact JSON rendering of a value, exactly the
output shape of JSON.stringify without indentation. -/
def jsonChars : Json → List Char
  | .null => "null".toList
  | .bool b => (if b then "true" else "false").toList
  | .num n => intChars n
  | .str s => strChars s
  | .arr [] => ['[', ']']
  | .arr (v :: vs) => '[' :: jsonChars v ++ arrTailChars vs
  | .obj [] => ['\x7b', '\x7d']
  | .obj (f :: fs) => '\x7b' :: memberChars f ++ objTailChars fs

/-- Rendering of the remaining array elements: a comma before each further
element, then the closing bracket. -/
def arrTailChars : List Json → List Char
  | [] => [']']
  | v :: vs => ',' :: jsonChars v ++ arrTailChars vs

/-- Rendering of one object member: quoted key, colon, value. -/
def memberChars : String × Json → List Char
  | (k, v) => strChars k ++ ':' :: jsonChars v

/-- Rendering of the remaining object members, then the closing brace. -/
def objTailChars : List (String × Json) → List Char
  | [] => ['\x7d']
  | f :: fs => ',' :: memberChars f ++ objTailChars fs
end

/-- The JSON rendering of a value as a string: the model of JSON.stringify. -/
def stringifyJson (v : Json) : String := ⟨jsonChars v⟩

/-- Decimal digit test used by the numeral grammar. -/
def isDig (c : Char) : Bool := 48 ≤ c.toNat && c.toNat ≤ 57

/-- Split a character list into its longest digit run and the remainder. -/
def takeDigits : List Char → List Char × List Char
  | [] => ([], [])
  | c :: cs =>
    if isDig c then
      let p := takeDigits cs
      (c :: p.1, p.2)
    else ([], c :: cs)

/-- Numeric value of a most-significant-first digit run. -/
def digitsVal (ds : List Char) : Nat :=
  ds.foldl (fun a c => 10 * a + (c.toNat - 48)) 0

/-- Parse a JSON natural numeral (nonempty digit run, no leading zeros)
and return the rest. -/
def parseNatNum (cs : List Char) : Option (Nat × List Char) :=
  let p := takeDigits cs
  if p.1 = [] then none
  else if p.1.headI = '0' ∧ p.1.length ≠ 1 then none
  else some (digitsVal p.1, p.2)

/-- Decoding of one escape designator inside a JSON string literal. -/
def unescape (c : Char) : Option Char :=
  if c = '\"' then some '\"'
  else if c = '\\' then some '\\'
  else if c = '/' then some '/'
  else if c = 'n' then some '\n'
  else if c = 't' then some '\t'
  else if c = 'r' then some '\r'
  else none

/-- Parse the body of a JSON string literal after the opening quote, up to
and including the closing quote; returns the decoded body and the rest. -/
def parseStrBody : List Char → Option (List Char × List Char)
  | [] => none
  | c :: cs =>
    if c = '\"' then some ([], cs)
    else if c = '\\' then
      match cs with
      | [] => none
      | e :: cs2 =>
        match unescape e with
        | some u => (parseStrBody cs2).map (fun p => (u :: p.1, p.2))
        | none => none
    else (parseStrBody cs).map (fun p => (c :: p.1, p.2))

/-- Expect the given literal characters at the front of the input and
return the input after them. -/
def expectChars : List Char → List Char → Option (List Char)
  | [], r => some r
  | e :: es, c :: r => if c = e then expectChars es r else none
  | _ :: _, [] => none

mutual
/-- Recursive-descent parser for one JSON value, the model of JSON.parse
over the compact grammar.  The fuel argument bounds the recursion depth and
is chosen larger than the input length by the top-level entry point. -/
def parseVal : Nat → List Char → Option (Json × List Char)
  | 0, _ => none
  | _ + 1, [] => none
  | fuel + 1, c :: r =>
    if c = 'n' then
      match expectChars ['u', 'l', 'l'] r with
      | some r2 => some (.null, r2)
      | none => none
    else if c = 't' then
      match expectChars ['r', 'u', 'e'] r with
      | some r2 => some (.bool true, r2)
      | none => none
    else if c = 'f' then
      match expectChars ['a', 'l', 's', 'e'] r with
      | some r2 => some (.bool false, r2)
      | none => none
    else if c = '\"' then
      match parseStrBody r with
      | some (s, r2) => some (.str ⟨s⟩, r2)
      | none => none
    else if c = '-' then
      match parseNatNum r with
      | some (n, r2) => some (.num (-(n : Int)), r2)
      | none => none
    else if c = '[' then
      match parseVal fuel r with
      | some (v, r2) =>
        match parseArrTail fuel r2 with
        | some (vs, r3) => some (.arr (v :: vs), r3)
        | none => none
      | none =>
        match expectChars [']'] r with
        | some r2 => some (.arr [], r2)
        | none => none
    else if c = '\x7b' then
      match parseMember fuel r with
      | some (f, r2) =>
        match parseObjTail fuel r2 with
        | some (fs, r3) => some (.obj (f :: fs), r3)
        | none => none
      | none =>
        match expectChars ['\x7d'] r with
        | some r2 => some (.obj [], r2)
        | none => none
    else if isDig c then
      match parseNatNum (c :: r) with
      | some (n, r2) => some (.num (n : Int), r2)
      | none => none
    else none

/-- Parse the array elements after the first one: either the closing
bracket or a comma followed by a value, repeatedly. -/
def parseArrTail : Nat → List Char → Option (List Json × List Char)
  | 0, _ => none
  | _ + 1, [] => none
  | fuel + 1, c :: r =>
    if c = ']' then some ([], r)
    else if c = ',' then
      match parseVal fuel r with
      | some (v, r2) =>
        match parseArrTail fuel r2 with
        | some (vs, r3) => some (v :: vs, r3)
        | none => none
      | none => none
    else none

/-- Parse one object member: quoted key, colon, value. -/
def parseMember : Nat → List Char → Option ((String × Json) × List Char)
  | 0, _ => none
  | _ + 1, [] => none
  | fuel + 1, c :: r =>
    if c = '\"' then
      match parseStrBody r with
      | some (k, r2) =>
        match r2 with
        | ':' :: r3 =>
          match parseVal fuel r3 with
          | some (v, r4) => some ((⟨k⟩, v), r4)
          | none => none
        | _ => none
      | none => none
    else none

/-- Parse the object members after the first one: either the closing brace
or a comma followed by a member, repeatedly. -/
def parseObjTail : Nat → List Char → Option (List (String × Json) × List Char)
  | 0, _ => none
  | _ + 1, [] => none
  | fuel + 1, c :: r =>
    if c = '\x7d' then some ([], r)
    else if c = ',' then
      match parseMember fuel r with
      | some (f, r2) =>
        match parseObjTail fuel r2 with
        | some (fs, r3) => some (f :: fs, r3)
        | none => none
      | none => none
    else none
end

/-- Top-level model of JSON.parse: parse one value and require the whole
input to be consumed; any violation of the grammar yields none, modelling
the SyntaxError JSON.parse would throw. -/
def jsonParse (cs : List Char) : Option Json :=
  match parseVal (cs.length + 1) cs with
  | some (v, []) => some v
  | _ => none

/-- Character lists whose head, if any, is not a decimal digit; after such
a remainder the numeral grammar is unambiguous. -/
def noDigitHead : List Char → Bool
  | [] => true
  | c :: _ => !(isDig c)

/-- Model of the choice-parsing step at the top of resolveDecision: a
string whose first character is a brace or bracket is run through
JSON.parse, and when parsing fails the original string is kept (the catch
branch); any other string is submitted as the raw string. -/
def parseChoice (choice : String) : Json :=
  match choice.toList with
  | c :: _ =>
    if c = '\x7b' ∨ c = '[' then
      match jsonParse choice.toList with
      | some v => v
      | none => .str choice
    else .str choice
  | [] => .str choice

/-- Model of the dataset value renderDecision stores on an option button:
a value of typeof object (objects, arrays and null) is stringified with
JSON.stringify, a primitive is coerced to its string rendering by the
dataset assignment. -/
def serializeOption : Json → String
  | .str s => s
  | .num n => ⟨intChars n⟩
  | .bool b => if b then "true" else "false"
  | v => stringifyJson v

/-- One entry of this.conversionHistory, pushed by resolveDecision on a
success response: the decision id and the parsed choice. -/
structure HistoryEntry where
  decision_id : String
  choice : Json
deriving DecidableEq

/-- A pending decision as delivered by the decisions endpoint. -/
structure Decision where
  id : String
  type : String
  description : String
  context : String
  impact : Option String
  options : List Json
  default_option : Option Json
deriving DecidableEq

/-- The mutable client-side state: the fields of the InteractiveConverter
instance, the window.converter fields it reads and writes, and the DOM
locations it manipulates.  Presentational strings that no behaviour
depends on (panel header, option button captions) are not tracked. -/
structure ConverterState where
  sessionId : Option String
  pendingDecisions : List Decision
  conversionHistory : List HistoryEntry
  currentFile : Option String
  currentResult : Option String
  sourceFormatSel : String
  targetFormatSel : String
  storePreferenceChecked : Bool
  interactivePanelVisible : Bool
  decisionContainerVisible : Bool
  sessionIdText : String
  pendingCountText : String
  displayedResult : Option String
  decisionPanelDecisionId : Option String
  optionValues : List String
  progressCompletedCount : Option Nat
  evaluateBtnDisabled : Bool
  toasts : List (String × String)
deriving DecidableEq

/-- One HTTP request issued against the remote resolver.  The session
component is an Option because the code interpolates this.sessionId into
the URL or body even when it is null. -/
inductive Request where
  | start (sourceFormat targetFormat : String)
  | decisions (sessionId : Option String)
  | resolve (sessionId : Option String) (decisionId : String) (choice : Json)
      (savePreference : Bool)
  | status (sessionId : Option String)
  | complete (sessionId : Option String)
  | cancel (sessionId : Option String) (reason : String)
deriving DecidableEq

/-- Outcome of one fetch round trip: a decoded JSON body, or a rejection
(network failure or JSON decode failure), which the code observes as a
thrown error carrying a message. -/
inductive FetchResult (α : Type) where
  | ok (value : α)
  | err (msg : String)
deriving DecidableEq

/-- Body of a response of the start endpoint. -/
structure StartResponse where
  status : String
  message : String
  session_id : String
  pending_decisions : Nat
deriving DecidableEq

/-- The decisions object of a decisions response. -/
structure DecisionsPayload where
  pending : List Decision
deriving DecidableEq

/-- Body of a response of the decisions endpoint. -/
structure DecisionsResponse where
  status : String
  message : String
  decisions : DecisionsPayload
deriving DecidableEq

/-- Body of a response of the resolve endpoint. -/
structure ResolveResponse where
  status : String
  message : String
  pending_decisions : Option Nat
  session_status : Option String
  result : Option String
deriving DecidableEq

/-- The completion_info object of a status response. -/
structure CompletionInfo where
  result : String
deriving DecidableEq

/-- The session_status object of a status response. -/
structure SessionStatusInfo where
  completion_info : Option CompletionInfo
deriving DecidableEq

/-- Body of a response of the status endpoint. -/
structure StatusResponse where
  status : String
  message : Option String
  session_status : SessionStatusInfo
deriving DecidableEq

/-- Body of a response of the complete endpoint. -/
structure CompleteResponse where
  status : String
  message : String
  result : Option String
deriving DecidableEq

/-- The responses the remote resolver would give to each endpoint during
one user-triggered operation; each endpoint is contacted at most once per
operation, so one response per endpoint suffices. -/
structure ServerResponses where
  startResp : FetchResult StartResponse
  decisionsResp : FetchResult DecisionsResponse
  resolveResp : FetchResult ResolveResponse
  statusResp : FetchResult StatusResponse
  completeResp : FetchResult CompleteResponse
  cancelResp : FetchResult Unit
deriving DecidableEq

/-- Utils.showToast: appends one toast message of the given kind. -/
def addToast (st : ConverterState) (message kind : String) : ConverterState :=
  { st with toasts := st.toasts ++ [(message, kind)] }

/-- JavaScript s1 or-else s2 on an optional string: a missing or empty
(falsy) value selects the fallback. -/
def jsOrStr (s : Option String) (dflt : String) : String :=
  match s with
  | some v => if v = "" then dflt else v
  | none => dflt

/-- JavaScript n or-else d on an optional number: a missing or zero
(falsy) value selects the fallback. -/
def jsOrNat (o : Option Nat) (d : Nat) : Nat :=
  match o with
  | some n => if n = 0 then d else n
  | none => d

/-- Decimal string of a natural number as the DOM renders it. -/
def natToString (n : Nat) : String := ⟨natToChars n⟩

/-- Embedding of InteractiveConverter.completeConversion: query the status
endpoint; when the session already carries completion_info use its result
without contacting the complete endpoint, otherwise POST to the complete
endpoint once; on any failure only an error toast is shown.  The decision
container is hidden after the successful branch of the status response.
Returns the new state and the requests issued. -/
def completeConversion (st : ConverterState) (env : ServerResponses) :
    ConverterState × List Request :=
  let req := Request.status st.sessionId
  match env.statusResp with
  | .err m => (addToast st ("Error completing conversion: " ++ m) "error", [req])
  | .ok data =>
    if data.status = "success" then
      match data.session_status.completion_info with
      | some ci =>
        let st1 := { st with displayedResult := some ci.result,
                             currentResult := some ci.result,
                             evaluateBtnDisabled := false }
        let st2 := addToast st1 "Conversion completed successfully" "success"
        let st3 := { st2 with progressCompletedCount := some st2.conversionHistory.length }
        ({ st3 with decisionContainerVisible := false }, [req])
      | none =>
        let req2 := Request.complete st.sessionId
        match env.completeResp with
        | .err m => (addToast st ("Error completing conversion: " ++ m) "error", [req, req2])
        | .ok d2 =>
          if d2.status = "success" then
            let st1 := { st with displayedResult := d2.result,
                                 currentResult := d2.result,
                                 evaluateBtnDisabled := false }
            let st2 := addToast st1 "Conversion completed successfully" "success"
            let st3 := { st2 with progressCompletedCount := some st2.conversionHistory.length }
            ({ st3 with decisionContainerVisible := false }, [req, req2])
          else
            (addToast st ("Error completing conversion: " ++ d2.message) "error", [req, req2])
    else
      (addToast st ("Error completing conversion: " ++ jsOrStr data.message "Error completing conversion")
        "error", [req])

/-- Embedding of InteractiveConverter.renderDecision: record the decision
id on the panel, rebuild the option buttons with their dataset values
(serializeOption per option), recreate the unchecked store-preference
checkbox, and show the decision container. -/
def renderDecision (st : ConverterState) (decision : Decision) : ConverterState :=
  { st with decisionPanelDecisionId := some decision.id,
            optionValues := decision.options.map serializeOption,
            storePreferenceChecked := false,
            decisionContainerVisible := true }

/-- Embedding of InteractiveConverter.getNextDecision: a null sessionId
returns immediately; otherwise the decisions endpoint is queried, a
success response with a nonempty pending list renders its first decision,
and every other response body falls into the completion path; only a
rejected fetch is surfaced as an error toast. -/
def getNextDecision (st : ConverterState) (env : ServerResponses) :
    ConverterState × List Request :=
  match st.sessionId with
  | none => (st, [])
  | some _ =>
    let req := Request.decisions st.sessionId
    match env.decisionsResp with
    | .err m => (addToast st ("Error getting next decision: " ++ m) "error", [req])
    | .ok data =>
      if data.status = "success" then
        match data.decisions.pending with
        | d :: _ => (renderDecision st d, [req])
        | [] =>
          let p := completeConversion st env
          (p.1, req :: p.2)
      else
        let p := completeConversion st env
        (p.1, req :: p.2)

/-- Embedding of InteractiveConverter.resolveDecision: parse the choice,
read the preference checkbox, POST to the resolve endpoint; on a success
response push the history entry and refresh the pending count, then either
finish (session_status completed) or fetch the next decision; on a failure
response or a rejected fetch only an error toast is shown. -/
def resolveDecision (st : ConverterState) (env : ServerResponses)
    (decisionId : String) (choice : String) : ConverterState × List Request :=
  let parsedChoice := parseChoice choice
  let savePreference := st.storePreferenceChecked
  let req := Request.resolve st.sessionId decisionId parsedChoice savePreference
  match env.resolveResp with
  | .err m => (addToast st ("Error resolving decision: " ++ m) "error", [req])
  | .ok data =>
    if data.status = "success" then
      let st1 := { st with
        conversionHistory := st.conversionHistory ++ [⟨decisionId, parsedChoice⟩],
        pendingCountText := natToString (jsOrNat data.pending_decisions 0) }
      if data.session_status = some "completed" then
        let st2 := { st1 with displayedResult := data.result,
                              decisionContainerVisible := false }
        let st3 := addToast st2 "Conversion completed successfully" "success"
        let st4 := { st3 with evaluateBtnDisabled := false,
                              currentResult := data.result }
        ({ st4 with progressCompletedCount := some st4.conversionHistory.length }, [req])
      else
        let p := getNextDecision st1 env
        (p.1, req :: p.2)
    else
      (addToast st ("Error resolving decision: " ++ data.message) "error", [req])

/-- Embedding of InteractiveConverter.startInteractiveConversion: without
a selected file only a toast is shown; otherwise the panel is shown and
the start endpoint is contacted; a success response stores the session id
and either fetches the first decision (pending positive) or goes straight
to completion; a failure hides the panel again with an error toast.  The
conversionHistory field is not touched on any path. -/
def startInteractiveConversion (st : ConverterState) (env : ServerResponses) :
    ConverterState × List Request :=
  match st.currentFile with
  | none => (addToast st "Please select a file first" "error", [])
  | some _ =>
    let st0 := { st with interactivePanelVisible := true }
    let req := Request.start st.sourceFormatSel st.targetFormatSel
    match env.startResp with
    | .err m =>
      ({ addToast st0 m "error" with interactivePanelVisible := false }, [req])
    | .ok data =>
      if data.status = "success" then
        let st1 := { st0 with sessionId := some data.session_id,
                              sessionIdText := data.session_id,
                              pendingCountText := natToString data.pending_decisions }
        let p :=
          if data.pending_decisions > 0 then getNextDecision st1 env
          else completeConversion st1 env
        (addToast p.1 "Interactive session started" "success", req :: p.2)
      else
        ({ addToast st0 data.message "error" with interactivePanelVisible := false }, [req])

/-- Embedding of InteractiveConverter.cancelSession: a null sessionId or a
declined confirmation does nothing; otherwise the cancel endpoint is
contacted and, unless the fetch rejects, sessionId, pendingDecisions and
conversionHistory are cleared and the panels hidden.  The response body is
never inspected. -/
def cancelSession (st : ConverterState) (env : ServerResponses) (confirmed : Bool) :
    ConverterState × List Request :=
  match st.sessionId with
  | none => (st, [])
  | some _ =>
    if confirmed then
      let req := Request.cancel st.sessionId "User cancelled"
      match env.cancelResp with
      | .err m => (addToast st ("Error cancelling session: " ++ m) "error", [req])
      | .ok _ =>
        let st1 := { st with sessionId := none, pendingDecisions := [],
                             conversionHistory := [],
                             interactivePanelVisible := false,
                             decisionContainerVisible := false }
        (addToast st1 "Interactive session cancelled" "info", [req])
    else (st, [])

/-- A click on the i-th rendered decision-option button: the delegated
click handler reads the decision id from the enclosing panel and the
dataset value of the button and calls resolveDecision with them. -/
def clickOption (st : ConverterState) (env : ServerResponses) (i : Nat) :
    ConverterState × List Request :=
  match st.decisionPanelDecisionId, st.optionValues.get? i with
  | some did, some v => resolveDecision st env did v
  | _, _ => (st, [])

/-- The state of a freshly constructed InteractiveConverter (constructor
fields) in a page with the given file selection, format selections and
widget defaults. -/
def initialState (file : Option String) (src tgt : String) : ConverterState :=
  { sessionId := none
    pendingDecisions := []
    conversionHistory := []
    currentFile := file
    currentResult := none
    sourceFormatSel := src
    targetFormatSel := tgt
    storePreferenceChecked := false
    interactivePanelVisible := false
    decisionContainerVisible := false
    sessionIdText := ""
    pendingCountText := ""
    displayedResult := none
    decisionPanelDecisionId := none
    optionValues := []
    progressCompletedCount := none
    evaluateBtnDisabled := true
    toasts := [] }

/-- A neutral environment in which every endpoint rejects; scenarios
override exactly the endpoints they exercise. -/
def idleEnv : ServerResponses :=
  { startResp := .err "unreachable"
    decisionsResp := .err "unreachable"
    resolveResp := .err "unreachable"
    statusResp := .err "unreachable"
    completeResp := .err "unreachable"
    cancelResp := .err "unreachable" }

/-- A sample decision with two scalar options. -/
def demoDecision : Decision :=
  { id := "dec-1"
    type := "structure_choice"
    description := "Choose a structure"
    context := "measure 1"
    impact := none
    options := [Json.str "keep", Json.str "drop"]
    default_option := none }

/-- A client mid-session: session sess-1 started, one pending decision
announced, nothing resolved yet. -/
def activeState : ConverterState :=
  { initialState (some "file.xml") "cmme" "mei" with
      sessionId := some "sess-1"
      interactivePanelVisible := true
      sessionIdText := "sess-1"
      pendingCountText := "1" }

/-- The mid-session state with demoDecision rendered in the panel. -/
def renderedState : ConverterState := renderDecision activeState demoDecision

/-- A resolve response that succeeds while the session stays active. -/
def activeResolveResponse : ResolveResponse :=
  { status := "success"
    message := ""
    pending_decisions := some 1
    session_status := some "active"
    result := none }

/-- A resolve response that succeeds and reports the session completed,
carrying the final artifact. -/
def completedResolveResponse : ResolveResponse :=
  { status := "success"
    message := ""
    pending_decisions := some 0
    session_status := some "completed"
    result := some "<converted/>" }

/-- Responses for a resolve that succeeds while the session stays active;
the follow-up decisions fetch rejects, leaving the panel untouched. -/
def envResolveActive : ServerResponses :=
  { idleEnv with
      resolveResp := .ok activeResolveResponse
      decisionsResp := .err "offline" }

/-- Responses for a resolve whose success response reports the session
completed and carries the final artifact. -/
def envResolveCompleted : ServerResponses :=
  { idleEnv with resolveResp := .ok completedResolveResponse }

/-- The client state right after a resolve that completed the session. -/
def completedState : ConverterState :=
  (resolveDecision renderedState envResolveCompleted "dec-1" "keep").1

/-- Whether a resolve round trip came back as a success response. -/
def resolveReported : FetchResult ResolveResponse → Bool
  | .ok d => d.status == "success"
  | .err _ => false

/-- The toast text resolveDecision produces for a failed round trip. -/
def resolveErrText : FetchResult ResolveResponse → String
  | .ok d => "Error resolving decision: " ++ d.message
  | .err m => "Error resolving decision: " ++ m

/-- Marker for requests against the finalize (complete) endpoint. -/
def isCompleteReq : Request → Bool
  | .complete _ => true
  | _ => false

/-- A decisions response reporting a server-side failure. -/
def failedDecisionsResponse : DecisionsResponse :=
  { status := "error"
    message := "decision queue unavailable"
    decisions := { pending := [] } }

/-- Environment in which the decisions endpoint reports failure and the
status endpoint (reached only by the completion path) rejects. -/
def envDecisionsFailure : ServerResponses :=
  { idleEnv with
      decisionsResp := .ok failedDecisionsResponse
      statusResp := .err "halt" }

/-- Environment in which the cancel endpoint accepts. -/
def envCancelOk : ServerResponses := { idleEnv with cancelResp := .ok () }

/-- A status response that already carries a completion result. -/
def completedStatusResponse : StatusResponse :=
  { status := "success"
    message := none
    session_status := { completion_info := some { result := "<done/>" } } }

/-- Environment in which the status endpoint reports a completed session. -/
def envStatusCompleted : ServerResponses :=
  { idleEnv with statusResp := .ok completedStatusResponse }

/-- A successful start response for a second session with no pending
decisions. -/
def secondStartResponse : StartResponse :=
  { status := "success"
    message := ""
    session_id := "sess-2"
    pending_decisions := 0 }

/-- Environment for a second start: the start endpoint succeeds with zero
pending decisions and the status endpoint reports completion. -/
def envStartSecond : ServerResponses :=
  { idleEnv with
      startResp := .ok secondStartResponse
      statusResp := .ok completedStatusResponse }

/-- A resolve response reporting a server-side failure. -/
def failedResolveResponse : ResolveResponse :=
  { status := "error"
    message := "bad choice"
    pending_decisions := none
    session_status := none
    result := none }

/-- Environment in which the resolve endpoint reports failure. -/
def envResolveFailure : ServerResponses :=
  { idleEnv with resolveResp := .ok failedResolveResponse }

/-- The object-valued option of the specification example. -/
def structuredOptionFields : List (String × Json) :=
  [("articulation", Json.str "staccato"), ("voice", Json.num 2)]

/-- A decision whose single option is the structured example option. -/
def structuredDecision : Decision :=
  { id := "dec-7"
    type := "format_specific"
    description := "Articulation mapping"
    context := "note 3"
    impact := none
    options := [Json.obj structuredOptionFields]
    default_option := none }

theorem natToCharsAux_eq_natToChars : ∀ n f : Nat, n < f → natToCharsAux f n = natToChars n := by
  intro n
  induction n using Nat.strong_induction_on with
  | _ n ih =>
    intro f hf
    match f, hf with
    | g + 1, _ =>
      show _ = natToCharsAux (n + 1) n
      rw [natToCharsAux, natToCharsAux]
      by_cases h : n < 10
      · simp [h]
      · rw [if_neg h, if_neg h,
          ih (n / 10) (by omega) g (by omega),
          ih (n / 10) (by omega) n (by omega)]

/-- Unfolding rule for natToChars in the shape of the usual recursion. -/
theorem natToChars_eq (n : Nat) :
    natToChars n = if n < 10 then [Nat.digitChar n]
      else natToChars (n / 10) ++ [Nat.digitChar (n % 10)] := by
  show natToCharsAux (n + 1) n = _
  rw [natToCharsAux]
  by_cases h : n < 10
  · simp [h]
  · rw [if_neg h, if_neg h, natToCharsAux_eq_natToChars (n / 10) n (by omega)]

theorem isDig_digitChar : ∀ d : Nat, d < 10 → isDig (Nat.digitChar d) = true := by decide

theorem digitChar_val : ∀ d : Nat, d < 10 → (Nat.digitChar d).toNat - 48 = d := by decide

theorem digitChar_ne_zero : ∀ d : Nat, d < 10 → 0 < d → Nat.digitChar d ≠ '0' := by decide

theorem natToChars_ne_nil (n : Nat) : natToChars n ≠ [] := by
  rw [natToChars_eq]
  split <;> simp

theorem natToChars_all_digits (n : Nat) : ∀ c ∈ natToChars n, isDig c = true := by
  induction n using Nat.strong_induction_on with
  | _ n ih =>
    rw [natToChars_eq]
    split
    · next h => simp [isDig_digitChar n h]
    · next h =>
      intro c hc
      rcases List.mem_append.mp hc with h1 | h1
      · exact ih (n / 10) (Nat.div_lt_self (by omega) (by omega)) c h1
      · simp only [List.mem_singleton] at h1
        subst h1
        exact isDig_digitChar _ (Nat.mod_lt _ (by omega))

theorem digitsVal_append_one (l : List Char) (c : Char) :
    digitsVal (l ++ [c]) = 10 * digitsVal l + (c.toNat - 48) := by
  simp [digitsVal, List.foldl_append]

theorem digitsVal_natToChars (n : Nat) : digitsVal (natToChars n) = n := by
  induction n using Nat.strong_induction_on with
  | _ n ih =>
    rw [natToChars_eq]
    split
    · next h => simp [digitsVal, digitChar_val n h]
    · next h =>
      rw [digitsVal_append_one, ih (n / 10) (Nat.div_lt_self (by omega) (by omega)),
        digitChar_val _ (Nat.mod_lt _ (by omega))]
      omega

theorem natToChars_head_ne_zero (n : Nat) (hn : n ≠ 0) :
    ∀ ds : List Char, natToChars n ≠ '0' :: ds := by
  induction n using Nat.strong_induction_on with
  | _ n ih =>
    intro ds
    rw [natToChars_eq]
    split
    · next h =>
      intro hcontra
      have hd : Nat.digitChar n = '0' := by
        simpa using congrArg (fun l => l.headI) hcontra
      exact digitChar_ne_zero n h (by omega) hd
    · next h =>
      intro hcontra
      obtain ⟨d, ds2, hcons⟩ := List.exists_cons_of_ne_nil (natToChars_ne_nil (n / 10))
      rw [hcons] at hcontra
      simp only [List.cons_append, List.cons.injEq] at hcontra
      exact ih (n / 10) (Nat.div_lt_self (by omega) (by omega)) (by omega) ds2
        (by rw [hcons, hcontra.1])

theorem takeDigits_append (l rest : List Char) (hl : ∀ c ∈ l, isDig c = true)
    (hrest : noDigitHead rest = true) : takeDigits (l ++ rest) = (l, rest) := by
  induction l with
  | nil =>
    cases rest with
    | nil => rfl
    | cons c cs =>
      simp only [noDigitHead, Bool.not_eq_true'] at hrest
      simp [takeDigits, hrest]
  | cons c cs ihl =>
    have hc : isDig c = true := hl c (by simp)
    simp [takeDigits, hc, ihl (fun x hx => hl x (by simp [hx]))]

theorem parseNatNum_natToChars (n : Nat) (rest : List Char)
    (hrest : noDigitHead rest = true) :
    parseNatNum (natToChars n ++ rest) = some (n, rest) := by
  have htake : takeDigits (natToChars n ++ rest) = (natToChars n, rest) :=
    takeDigits_append _ _ (natToChars_all_digits n) hrest
  unfold parseNatNum
  simp only [htake]
  by_cases hz : n = 0
  · subst hz
    have h0 : natToChars 0 = ['0'] := by decide
    simp [h0, digitsVal]
  · have hne := natToChars_ne_nil n
    have hhead : ¬(List.headI (natToChars n) = '0' ∧ (natToChars n).length ≠ 1) := by
      rintro ⟨hh, -⟩
      obtain ⟨d, ds, hcons⟩ := List.exists_cons_of_ne_nil hne
      rw [hcons] at hh
      simp only [List.headI] at hh
      subst hh
      exact natToChars_head_ne_zero n hz ds hcons
    rw [if_neg (by simpa using hne), if_neg hhead, digitsVal_natToChars]

theorem parseStrBody_cons (c : Char) (cs : List Char) :
    parseStrBody (c :: cs) =
      if c = '\"' then some ([], cs)
      else if c = '\\' then
        match cs with
        | [] => none
        | e :: cs2 =>
          match unescape e with
          | some u => (parseStrBody cs2).map (fun p => (u :: p.1, p.2))
          | none => none
      else (parseStrBody cs).map (fun p => (c :: p.1, p.2)) := by
  rw [parseStrBody.eq_def]

theorem parseStrBody_escape (l rest : List Char) :
    parseStrBody (escapeChars l ++ '\"' :: rest) = some (l, rest) := by
  induction l with
  | nil => simp [escapeChars, parseStrBody_cons]
  | cons c cs ihl =>
    simp only [escapeChars, List.append_assoc]
    unfold escapeChar
    split_ifs with h1 h2 h3 h4
    · subst h1
      simp only [List.cons_append, parseStrBody_cons, reduceIte, unescape, ihl]
      simp [ihl]
    · subst h2
      simp only [List.cons_append, parseStrBody_cons, reduceIte, unescape, ihl]
      simp [ihl]
    · subst h3
      simp only [List.cons_append, parseStrBody_cons, reduceIte, unescape, ihl]
      simp [ihl]
    · subst h4
      simp only [List.cons_append, parseStrBody_cons, reduceIte, unescape, ihl]
      simp [ihl]
    · simp only [List.singleton_append]
      rw [parseStrBody_cons]
      simp [h1, h2, ihl]

theorem jsonChars_len_pos (v : Json) : 0 < (jsonChars v).length := by
  match v with
  | .null => simp [jsonChars]
  | .bool true => simp [jsonChars]
  | .bool false => simp [jsonChars]
  | .num (.ofNat m) =>
    have := natToChars_ne_nil m
    simp only [jsonChars, intChars]
    exact List.length_pos.mpr this
  | .num (.negSucc m) => simp [jsonChars, intChars]
  | .str s => simp [jsonChars, strChars]
  | .arr [] => simp [jsonChars]
  | .arr (v :: vs) => simp [jsonChars]
  | .obj [] => simp [jsonChars]
  | .obj (f :: fs) => simp [jsonChars]

theorem strChars_len (s : String) : 2 ≤ (strChars s).length := by
  simp [strChars]

theorem noDigitHead_arrTail (es : List Json) (rest : List Char) :
    noDigitHead (arrTailChars es ++ rest) = true := by
  cases es <;> simp [arrTailChars, noDigitHead] <;> decide

theorem noDigitHead_objTail (fs : List (String × Json)) (rest : List Char) :
    noDigitHead (objTailChars fs ++ rest) = true := by
  cases fs <;> simp [objTailChars, noDigitHead] <;> decide

theorem parseVal_digit (fuel : Nat) (c : Char) (r : List Char) (h : isDig c = true) :
    parseVal (fuel + 1) (c :: r) =
      (match parseNatNum (c :: r) with
        | some (n, r2) => some (.num (n : Int), r2)
        | none => none) := by
  have h1 : ¬c = 'n' := fun he => by rw [he] at h; exact absurd h (by decide)
  have h2 : ¬c = 't' := fun he => by rw [he] at h; exact absurd h (by decide)
  have h3 : ¬c = 'f' := fun he => by rw [he] at h; exact absurd h (by decide)
  have h4 : ¬c = '\"' := fun he => by rw [he] at h; exact absurd h (by decide)
  have h5 : ¬c = '-' := fun he => by rw [he] at h; exact absurd h (by decide)
  have h6 : ¬c = '[' := fun he => by rw [he] at h; exact absurd h (by decide)
  have h7 : ¬c = '\x7b' := fun he => by rw [he] at h; exact absurd h (by decide)
  rw [parseVal]
  rw [if_neg h1, if_neg h2, if_neg h3, if_neg h4, if_neg h5, if_neg h6, if_neg h7, if_pos h]

theorem parseVal_closeBracket (fuel : Nat) (rest : List Char) :
    parseVal fuel (']' :: rest) = none := by
  cases fuel <;> rfl

theorem parseMember_closeBrace (fuel : Nat) (rest : List Char) :
    parseMember fuel ('\x7d' :: rest) = none := by
  cases fuel <;> rfl

theorem arrTail_len_pos (es : List Json) : 0 < (arrTailChars es).length := by
  cases es <;> simp [arrTailChars]

theorem objTail_len_pos (fs : List (String × Json)) : 0 < (objTailChars fs).length := by
  cases fs <;> simp [objTailChars]

theorem expectChars_append (es rest : List Char) :
    expectChars es (es ++ rest) = some rest := by
  induction es with
  | nil => rfl
  | cons e es ih => simp [expectChars, ih]

mutual
theorem parseVal_jsonChars (v : Json) (fuel : Nat) (rest : List Char)
    (hlen : (jsonChars v).length ≤ fuel) (hrest : noDigitHead rest = true) :
    parseVal fuel (jsonChars v ++ rest) = some (v, rest) := by
  match fuel, hlen with
  | 0, hlen => exact absurd hlen (by have := jsonChars_len_pos v; omega)
  | f + 1, hlen =>
    match v with
    | .null =>
      show parseVal (f + 1) ('n' :: ('u' :: 'l' :: 'l' :: rest)) = _
      rw [parseVal, if_pos rfl,
        show 'u' :: 'l' :: 'l' :: rest = ['u', 'l', 'l'] ++ rest from rfl, expectChars_append]
    | .bool true =>
      show parseVal (f + 1) ('t' :: ('r' :: 'u' :: 'e' :: rest)) = _
      rw [parseVal, if_neg (by decide), if_pos rfl,
        show 'r' :: 'u' :: 'e' :: rest = ['r', 'u', 'e'] ++ rest from rfl, expectChars_append]
    | .bool false =>
      show parseVal (f + 1) ('f' :: ('a' :: 'l' :: 's' :: 'e' :: rest)) = _
      rw [parseVal, if_neg (by decide), if_neg (by decide), if_pos rfl,
        show 'a' :: 'l' :: 's' :: 'e' :: rest = ['a', 'l', 's', 'e'] ++ rest from rfl,
        expectChars_append]
    | .str s =>
      have harr : jsonChars (.str s) ++ rest
          = '\"' :: (escapeChars s.toList ++ ('\"' :: rest)) := by
        simp [jsonChars, strChars]
      rw [harr, parseVal, if_neg (by decide), if_neg (by decide), if_neg (by decide),
        if_pos rfl, parseStrBody_escape]
      rfl
    | .num (.ofNat m) =>
      obtain ⟨d, ds, hcons⟩ := List.exists_cons_of_ne_nil (natToChars_ne_nil m)
      have hd : isDig d = true :=
        natToChars_all_digits m d (by rw [hcons]; exact List.mem_cons_self _ _)
      have harr : jsonChars (.num (.ofNat m)) ++ rest = d :: (ds ++ rest) := by
        show natToChars m ++ rest = _
        rw [hcons, List.cons_append]
      rw [harr, parseVal_digit f d _ hd,
        show d :: (ds ++ rest) = (d :: ds) ++ rest from rfl, ← hcons,
        parseNatNum_natToChars m rest hrest]
      rfl
    | .num (.negSucc m) =>
      have harr : jsonChars (.num (.negSucc m)) ++ rest = '-' :: (natToChars (m + 1) ++ rest) := by
        show ('-' :: natToChars (m + 1)) ++ rest = _
        rw [List.cons_append]
      rw [harr, parseVal, if_neg (by decide), if_neg (by decide), if_neg (by decide),
        if_neg (by decide), if_pos rfl, parseNatNum_natToChars (m + 1) rest hrest]
      have hneg : (-((m : Int) + 1)) = Int.negSucc m := (Int.negSucc_eq m).symm
      simp only [Nat.cast_add, Nat.cast_one, hneg]
    | .arr [] =>
      show parseVal (f + 1) ('[' :: (']' :: rest)) = _
      rw [parseVal, if_neg (by decide), if_neg (by decide), if_neg (by decide),
        if_neg (by decide), if_neg (by decide), if_pos rfl, parseVal_closeBracket,
        show ']' :: rest = [']'] ++ rest from rfl, expectChars_append]
    | .arr (v1 :: vs) =>
      have hA : (jsonChars v1).length ≤ f := by
        simp only [jsonChars, List.length_cons, List.length_append] at hlen
        omega
      have hB : (arrTailChars vs).length ≤ f := by
        simp only [jsonChars, List.length_cons, List.length_append] at hlen
        omega
      have harr : jsonChars (.arr (v1 :: vs)) ++ rest
          = '[' :: (jsonChars v1 ++ (arrTailChars vs ++ rest)) := by
        simp [jsonChars]
      rw [harr, parseVal, if_neg (by decide), if_neg (by decide), if_neg (by decide),
        if_neg (by decide), if_neg (by decide), if_pos rfl]
      simp only [parseVal_jsonChars v1 f _ hA (noDigitHead_arrTail vs rest),
        parseArrTail_arrTailChars vs f rest hB]
    | .obj [] =>
      show parseVal (f + 1) ('\x7b' :: ('\x7d' :: rest)) = _
      rw [parseVal, if_neg (by decide), if_neg (by decide), if_neg (by decide),
        if_neg (by decide), if_neg (by decide), if_neg (by decide), if_pos rfl,
        parseMember_closeBrace,
        show '\x7d' :: rest = ['\x7d'] ++ rest from rfl, expectChars_append]
    | .obj (f1 :: fs) =>
      have hA : (memberChars f1).length ≤ f := by
        simp only [jsonChars, List.length_cons, List.length_append] at hlen
        omega
      have hB : (objTailChars fs).length ≤ f := by
        simp only [jsonChars, List.length_cons, List.length_append] at hlen
        omega
      have harr : jsonChars (.obj (f1 :: fs)) ++ rest
          = '\x7b' :: (memberChars f1 ++ (objTailChars fs ++ rest)) := by
        simp [jsonChars]
      rw [harr, parseVal, if_neg (by decide), if_neg (by decide), if_neg (by decide),
        if_neg (by decide), if_neg (by decide), if_neg (by decide), if_pos rfl]
      simp only [parseMember_memberChars f1 f _ hA (noDigitHead_objTail fs rest),
        parseObjTail_objTailChars fs f rest hB]
termination_by sizeOf v

theorem parseArrTail_arrTailChars (es : List Json) (fuel : Nat) (rest : List Char)
    (hlen : (arrTailChars es).length ≤ fuel) :
    parseArrTail fuel (arrTailChars es ++ rest) = some (es, rest) := by
  match fuel, hlen with
  | 0, hlen => exact absurd hlen (by have := arrTail_len_pos es; omega)
  | f + 1, hlen =>
    match es with
    | [] =>
      show parseArrTail (f + 1) (']' :: rest) = _
      rw [parseArrTail, if_pos rfl]
    | v1 :: vs =>
      have hA : (jsonChars v1).length ≤ f := by
        simp only [arrTailChars, List.length_cons, List.length_append] at hlen
        omega
      have hB : (arrTailChars vs).length ≤ f := by
        simp only [arrTailChars, List.length_cons, List.length_append] at hlen
        omega
      have harr : arrTailChars (v1 :: vs) ++ rest
          = ',' :: (jsonChars v1 ++ (arrTailChars vs ++ rest)) := by
        simp [arrTailChars]
      rw [harr, parseArrTail, if_neg (by decide), if_pos rfl]
      simp only [parseVal_jsonChars v1 f _ hA (noDigitHead_arrTail vs rest),
        parseArrTail_arrTailChars vs f rest hB]
termination_by sizeOf es

theorem parseMember_memberChars (kv : String × Json) (fuel : Nat) (rest : List Char)
    (hlen : (memberChars kv).length ≤ fuel) (hrest : noDigitHead rest = true) :
    parseMember fuel (memberChars kv ++ rest) = some (kv, rest) := by
  match kv with
  | (k, v) =>
    match fuel, hlen with
    | 0, hlen =>
      exact absurd hlen (by
        have h1 := strChars_len k
        simp only [memberChars, List.length_append, List.length_cons]
        omega)
    | f + 1, hlen =>
      have hA : (jsonChars v).length ≤ f := by
        have h1 := strChars_len k
        simp only [memberChars, List.length_append, List.length_cons] at hlen
        omega
      have harr : memberChars (k, v) ++ rest
          = '\"' :: (escapeChars k.toList ++ ('\"' :: (':' :: (jsonChars v ++ rest)))) := by
        simp [memberChars, strChars]
      rw [harr, parseMember, if_pos rfl, parseStrBody_escape]
      simp only [parseVal_jsonChars v f _ hA hrest]
      rfl
termination_by sizeOf kv

theorem parseObjTail_objTailChars (fs : List (String × Json)) (fuel : Nat) (rest : List Char)
    (hlen : (objTailChars fs).length ≤ fuel) :
    parseObjTail fuel (objTailChars fs ++ rest) = some (fs, rest) := by
  match fuel, hlen with
  | 0, hlen => exact absurd hlen (by have := objTail_len_pos fs; omega)
  | f + 1, hlen =>
    match fs with
    | [] =>
      show parseObjTail (f + 1) ('\x7d' :: rest) = _
      rw [parseObjTail, if_pos rfl]
    | f1 :: fs2 =>
      have hA : (memberChars f1).length ≤ f := by
        simp only [objTailChars, List.length_cons, List.length_append] at hlen
        omega
      have hB : (objTailChars fs2).length ≤ f := by
        simp only [objTailChars, List.length_cons, List.length_append] at hlen
        omega
      have harr : objTailChars (f1 :: fs2) ++ rest
          = ',' :: (memberChars f1 ++ (objTailChars fs2 ++ rest)) := by
        simp [objTailChars]
      rw [harr, parseObjTail, if_neg (by decide), if_pos rfl]
      simp only [parseMember_memberChars f1 f _ hA (noDigitHead_objTail fs2 rest),
        parseObjTail_objTailChars fs2 f rest hB]
termination_by sizeOf fs
end

/-- The printer and the parser are mutually inverse: parsing the compact
rendering of any Json value returns exactly that value. -/
theorem jsonParse_jsonChars (v : Json) : jsonParse (jsonChars v) = some v := by
  unfold jsonParse
  have h := parseVal_jsonChars v ((jsonChars v).length + 1) [] (by omega) rfl
  rw [List.append_nil] at h
  rw [h]

/-- A structured (object-valued) option survives the serialize-then-parse
path of the decision UI unchanged. -/
theorem parseChoice_serializeOption_obj (fs : List (String × Json)) :
    parseChoice (serializeOption (.obj fs)) = .obj fs := by
  obtain ⟨l, hl⟩ : ∃ l, (serializeOption (Json.obj fs)).toList = '\x7b' :: l := by
    cases fs <;> exact ⟨_, rfl⟩
  have hparse : jsonParse ((serializeOption (Json.obj fs)).toList) = some (.obj fs) :=
    jsonParse_jsonChars (.obj fs)
  unfold parseChoice
  rw [hparse]
  simp only [hl]
  simp

theorem completeConversion_history (st : ConverterState) (env : ServerResponses) :
    (completeConversion st env).1.conversionHistory = st.conversionHistory := by
  cases henv : env.statusResp with
  | err m => simp [completeConversion, henv, addToast]
  | ok data =>
    by_cases hs : data.status = "success"
    · cases hci : data.session_status.completion_info with
      | some ci => simp [completeConversion, henv, hs, hci, addToast]
      | none =>
        cases hc2 : env.completeResp with
        | err m => simp [completeConversion, henv, hs, hci, hc2, addToast]
        | ok d2 =>
          by_cases h2 : d2.status = "success" <;>
            simp [completeConversion, henv, hs, hci, hc2, h2, addToast]
    · simp [completeConversion, henv, hs, addToast]

theorem completeConversion_sessionId (st : ConverterState) (env : ServerResponses) :
    (completeConversion st env).1.sessionId = st.sessionId := by
  cases henv : env.statusResp with
  | err m => simp [completeConversion, henv, addToast]
  | ok data =>
    by_cases hs : data.status = "success"
    · cases hci : data.session_status.completion_info with
      | some ci => simp [completeConversion, henv, hs, hci, addToast]
      | none =>
        cases hc2 : env.completeResp with
        | err m => simp [completeConversion, henv, hs, hci, hc2, addToast]
        | ok d2 =>
          by_cases h2 : d2.status = "success" <;>
            simp [completeConversion, henv, hs, hci, hc2, h2, addToast]
    · simp [completeConversion, henv, hs, addToast]

theorem getNextDecision_history (st : ConverterState) (env : ServerResponses) :
    (getNextDecision st env).1.conversionHistory = st.conversionHistory := by
  cases hsid : st.sessionId with
  | none => simp [getNextDecision, hsid]
  | some sid =>
    cases henv : env.decisionsResp with
    | err m => simp [getNextDecision, hsid, henv, addToast]
    | ok data =>
      by_cases hs : data.status = "success"
      · cases hp : data.decisions.pending with
        | cons d tl => simp [getNextDecision, hsid, henv, hs, hp, renderDecision]
        | nil =>
          simp [getNextDecision, hsid, henv, hs, hp, completeConversion_history st env]
      · simp [getNextDecision, hsid, henv, hs, completeConversion_history st env]

theorem getNextDecision_sessionId (st : ConverterState) (env : ServerResponses) :
    (getNextDecision st env).1.sessionId = st.sessionId := by
  cases hsid : st.sessionId with
  | none => simp [getNextDecision, hsid]
  | some sid =>
    cases henv : env.decisionsResp with
    | err m => simp [getNextDecision, hsid, henv, addToast]
    | ok data =>
      by_cases hs : data.status = "success"
      · cases hp : data.decisions.pending with
        | cons d tl => simp [getNextDecision, hsid, henv, hs, hp, renderDecision]
        | nil =>
          rw [show (getNextDecision st env).1 = (completeConversion st env).1 by
            simp [getNextDecision, hsid, henv, hs, hp]]
          rw [completeConversion_sessionId st env, hsid]
      · rw [show (getNextDecision st env).1 = (completeConversion st env).1 by
          simp [getNextDecision, hsid, henv, hs]]
        rw [completeConversion_sessionId st env, hsid]

theorem resolveDecision_history (st : ConverterState) (env : ServerResponses)
    (d c : String) :
    (resolveDecision st env d c).1.conversionHistory =
      if resolveReported env.resolveResp then
        st.conversionHistory ++ [⟨d, parseChoice c⟩]
      else st.conversionHistory := by
  cases henv : env.resolveResp with
  | err m => simp [resolveDecision, henv, addToast, resolveReported]
  | ok data =>
    by_cases hs : data.status = "success"
    · by_cases hc : data.session_status = some "completed"
      · simp [resolveDecision, henv, hs, hc, addToast, resolveReported]
      · simp [resolveDecision, henv, hs, hc, resolveReported, getNextDecision_history]
    · simp [resolveDecision, henv, hs, addToast, resolveReported]

theorem resolveDecision_sessionId (st : ConverterState) (env : ServerResponses)
    (d c : String) :
    (resolveDecision st env d c).1.sessionId = st.sessionId := by
  cases henv : env.resolveResp with
  | err m => simp [resolveDecision, henv, addToast]
  | ok data =>
    by_cases hs : data.status = "success"
    · by_cases hc : data.session_status = some "completed"
      · simp [resolveDecision, henv, hs, hc, addToast]
      · simp [resolveDecision, henv, hs, hc, getNextDecision_sessionId]
    · simp [resolveDecision, henv, hs, addToast]

theorem resolveDecision_requests_head (st : ConverterState) (env : ServerResponses)
    (d c : String) :
    ((resolveDecision st env d c).2).head? =
      some (.resolve st.sessionId d (parseChoice c) st.storePreferenceChecked) := by
  cases henv : env.resolveResp with
  | err m => simp [resolveDecision, henv]
  | ok data =>
    by_cases hs : data.status = "success"
    · by_cases hc : data.session_status = some "completed"
      · simp [resolveDecision, henv, hs, hc]
      · simp [resolveDecision, henv, hs, hc]
    · simp [resolveDecision, henv, hs]

theorem resolveDecision_failed (st : ConverterState) (env : ServerResponses)
    (d c : String) (hfail : resolveReported env.resolveResp = false) :
    (resolveDecision st env d c).1 = addToast st (resolveErrText env.resolveResp) "error" ∧
    (resolveDecision st env d c).2 =
      [.resolve st.sessionId d (parseChoice c) st.storePreferenceChecked] := by
  cases henv : env.resolveResp with
  | err m => simp [resolveDecision, henv, resolveErrText]
  | ok data =>
    rw [henv] at hfail
    have hs : ¬data.status = "success" := by
      simpa [resolveReported] using hfail
    simp [resolveDecision, henv, hs, resolveErrText]

theorem startInteractiveConversion_history (st : ConverterState) (env : ServerResponses) :
    (startInteractiveConversion st env).1.conversionHistory = st.conversionHistory := by
  cases hfile : st.currentFile with
  | none => simp [startInteractiveConversion, hfile, addToast]
  | some f =>
    cases henv : env.startResp with
    | err m => simp [startInteractiveConversion, hfile, henv, addToast]
    | ok data =>
      by_cases hs : data.status = "success"
      · by_cases hp : data.pending_decisions > 0 <;>
          simp [startInteractiveConversion, hfile, henv, hs, hp, addToast,
            getNextDecision_history, completeConversion_history]
      · simp [startInteractiveConversion, hfile, henv, hs, addToast]

theorem getNextDecision_requests_head (st : ConverterState) (env : ServerResponses)
    (sid : String) (hsid : st.sessionId = some sid) :
    ((getNextDecision st env).2).head? = some (Request.decisions (some sid)) := by
  cases henv : env.decisionsResp with
  | err m => simp [getNextDecision, hsid, henv]
  | ok data =>
    by_cases hs : data.status = "success"
    · cases hp : data.decisions.pending with
      | cons d tl => simp [getNextDecision, hsid, henv, hs, hp]
      | nil => simp [getNextDecision, hsid, henv, hs, hp]
    · simp [getNextDecision, hsid, henv, hs]

/-- C1: as stated the claim fails on its duplicate-id half.  With decision
dec-1 rendered, a second click on the same still-rendered option (the
panel survives a resolve whose follow-up decisions fetch failed) submits a
resolution for a decision id already present in history, and on the
success response the same id is appended to history a second time. -/
theorem C1_counterexample :
    (clickOption (clickOption renderedState envResolveActive 0).1
        envResolveActive 0).1.conversionHistory
      = [⟨"dec-1", Json.str "keep"⟩, ⟨"dec-1", Json.str "keep"⟩] ∧
    (clickOption (clickOption renderedState envResolveActive 0).1
        envResolveActive 0).2
      = [Request.resolve (some "sess-1") "dec-1" (Json.str "keep") false,
         Request.decisions (some "sess-1")] := by decide

/-- C1 amended: for every session state, resolveDecision appends exactly
one history entry when the resolve response reports success and appends
nothing otherwise, so the history length counts the successful resolve
calls; the client has no duplicate guard, so a decision id already in
history can be submitted and recorded again. -/
theorem C1_history_counts_successful_resolves (st : ConverterState)
    (env : ServerResponses) (d c : String) :
    (resolveDecision st env d c).1.conversionHistory =
      if resolveReported env.resolveResp then
        st.conversionHistory ++ [⟨d, parseChoice c⟩]
      else st.conversionHistory :=
  resolveDecision_history st env d c

/-- C2: as stated the claim fails.  After the resolve that completed the
session, the client-side session state still carries the session id, and a
subsequent getNextDecision issues a decisions request against the server
instead of rejecting the call; resolveDecision likewise still submits. -/
theorem C2_counterexample :
    completedState.sessionId = some "sess-1" ∧
    (getNextDecision completedState envResolveActive).2
      = [Request.decisions (some "sess-1")] ∧
    ((resolveDecision completedState envResolveActive "dec-1" "drop").2).head?
      = some (Request.resolve (some "sess-1") "dec-1" (Json.str "drop") false) := by
  decide

/-- C2 amended: after a resolve whose response reports the session
completed, the client hides the decision container but keeps sessionId
set and has no terminal-session guard: a later getNextDecision or
resolveDecision on the same session still sends a request to the server
(only a null sessionId suppresses getNextDecision). -/
theorem C2_terminal_not_guarded (st : ConverterState) (env env2 : ServerResponses)
    (d c sid : String) (data : ResolveResponse)
    (hsid : st.sessionId = some sid)
    (henv : env.resolveResp = .ok data)
    (hs : data.status = "success")
    (hcomp : data.session_status = some "completed") :
    (resolveDecision st env d c).1.sessionId = some sid ∧
    (resolveDecision st env d c).1.decisionContainerVisible = false ∧
    ((getNextDecision (resolveDecision st env d c).1 env2).2).head?
      = some (Request.decisions (some sid)) ∧
    ((resolveDecision (resolveDecision st env d c).1 env2 d c).2).head?
      = some (Request.resolve (some sid) d (parseChoice c)
          ((resolveDecision st env d c).1.storePreferenceChecked)) := by
  have hsid2 : (resolveDecision st env d c).1.sessionId = some sid := by
    rw [resolveDecision_sessionId, hsid]
  refine ⟨hsid2, ?_, ?_, ?_⟩
  · simp [resolveDecision, henv, hs, hcomp, addToast]
  · exact getNextDecision_requests_head _ env2 sid hsid2
  · rw [resolveDecision_requests_head, hsid2]

theorem C2_witness :
    (resolveDecision renderedState envResolveCompleted "dec-1" "keep").1.sessionId
      = some "sess-1" ∧
    (resolveDecision renderedState envResolveCompleted "dec-1" "keep").1.decisionContainerVisible
      = false ∧
    ((getNextDecision (resolveDecision renderedState envResolveCompleted "dec-1" "keep").1
        envResolveActive).2).head?
      = some (Request.decisions (some "sess-1")) ∧
    ((resolveDecision (resolveDecision renderedState envResolveCompleted "dec-1" "keep").1
        envResolveActive "dec-1" "keep").2).head?
      = some (Request.resolve (some "sess-1") "dec-1" (parseChoice "keep")
          ((resolveDecision renderedState envResolveCompleted "dec-1" "keep").1.storePreferenceChecked)) :=
  C2_terminal_not_guarded renderedState envResolveCompleted envResolveActive "dec-1" "keep"
    "sess-1" completedResolveResponse (by decide) rfl rfl rfl

/-- C3: as stated the claim fails.  A decisions response reporting a
server-side failure (status error) is not surfaced as an error: the
controller proceeds to the completion step exactly as for an empty queue
(the status request is issued) and the failure message never reaches a
toast; only the later transport failure of the status fetch does. -/
theorem C3_counterexample :
    (getNextDecision activeState envDecisionsFailure).2
      = [Request.decisions (some "sess-1"), Request.status (some "sess-1")] ∧
    (getNextDecision activeState envDecisionsFailure).1.toasts
      = [("Error completing conversion: halt", "error")] := by decide

/-- C3 amended: only a transport failure (rejected fetch) of the decisions
round trip is surfaced as an error toast without proceeding; a server
failure response body is handled exactly like an empty queue, the
controller proceeding to the completion step. -/
theorem C3_failure_conflated_with_empty (st : ConverterState) (env : ServerResponses)
    (sid : String) (hsid : st.sessionId = some sid) :
    (∀ m, env.decisionsResp = .err m →
      getNextDecision st env
        = (addToast st ("Error getting next decision: " ++ m) "error",
            [Request.decisions (some sid)])) ∧
    (∀ data, env.decisionsResp = .ok data → data.status ≠ "success" →
      getNextDecision st env
        = ((completeConversion st env).1,
            Request.decisions (some sid) :: (completeConversion st env).2)) := by
  constructor
  · intro m hm
    simp [getNextDecision, hsid, hm]
  · intro data hd hs
    simp [getNextDecision, hsid, hd, hs]

theorem C3_witness :
    getNextDecision activeState envDecisionsFailure
      = ((completeConversion activeState envDecisionsFailure).1,
          Request.decisions (some "sess-1")
            :: (completeConversion activeState envDecisionsFailure).2) :=
  (C3_failure_conflated_with_empty activeState envDecisionsFailure "sess-1" (by decide)).2
    failedDecisionsResponse rfl (by decide)

/-- C4: as stated the claim fails.  The state after a resolve reported the
session completed still has its session id; a confirmed cancel then
issues the cancel request against the completed session and clears the
local session state, wiping the history — not a no-op, and the local
session tracking regresses rather than staying terminal. -/
theorem C4_counterexample :
    completedState.currentResult = some "<converted/>" ∧
    completedState.conversionHistory = [⟨"dec-1", Json.str "keep"⟩] ∧
    (cancelSession completedState envCancelOk true).2
      = [Request.cancel (some "sess-1") "User cancelled"] ∧
    (cancelSession completedState envCancelOk true).1.sessionId = none ∧
    (cancelSession completedState envCancelOk true).1.conversionHistory = [] := by decide

/-- C4 amended: the client tracks no session status field and cancel has
no completed-session guard: on any state with a non-null sessionId, a
confirmed cancel whose fetch does not reject issues the cancel request
and unconditionally clears sessionId, pendingDecisions and
conversionHistory; invoked after the session completed it is therefore
not a no-op. -/
theorem C4_cancel_not_noop (st : ConverterState) (env : ServerResponses) (sid : String)
    (hsid : st.sessionId = some sid) (hok : env.cancelResp = .ok ()) :
    (cancelSession st env true).2 = [Request.cancel (some sid) "User cancelled"] ∧
    (cancelSession st env true).1.sessionId = none ∧
    (cancelSession st env true).1.pendingDecisions = [] ∧
    (cancelSession st env true).1.conversionHistory = [] := by
  simp [cancelSession, hsid, hok, addToast]

theorem C4_witness :
    (cancelSession completedState envCancelOk true).2
      = [Request.cancel (some "sess-1") "User cancelled"] ∧
    (cancelSession completedState envCancelOk true).1.sessionId = none ∧
    (cancelSession completedState envCancelOk true).1.pendingDecisions = [] ∧
    (cancelSession completedState envCancelOk true).1.conversionHistory = [] :=
  C4_cancel_not_noop completedState envCancelOk "sess-1" (by decide) rfl

/-- C5: as stated the claim fails.  The history entry recorded by the
successful resolve is present before the cancel operation and gone after
it: cancelSession resets conversionHistory to empty. -/
theorem C5_counterexample :
    completedState.conversionHistory = [⟨"dec-1", Json.str "keep"⟩] ∧
    (cancelSession completedState envCancelOk true).1.conversionHistory = [] := by decide

/-- C5 amended: the history is append-only under resolve (which only
appends, by at most one entry), and getNextDecision, completeConversion
and start never modify it; the exception is cancelSession, which resets
the history (see the counterexample). -/
theorem C5_append_only_except_cancel (st : ConverterState) (env : ServerResponses)
    (d c : String) :
    (∃ t, (resolveDecision st env d c).1.conversionHistory = st.conversionHistory ++ t) ∧
    (getNextDecision st env).1.conversionHistory = st.conversionHistory ∧
    (completeConversion st env).1.conversionHistory = st.conversionHistory ∧
    (startInteractiveConversion st env).1.conversionHistory = st.conversionHistory := by
  refine ⟨?_, getNextDecision_history st env, completeConversion_history st env,
    startInteractiveConversion_history st env⟩
  rw [resolveDecision_history]
  by_cases h : resolveReported env.resolveResp = true
  · exact ⟨_, by rw [if_pos h]⟩
  · exact ⟨[], by rw [if_neg h, List.append_nil]⟩

/-- C6 confirmed: when the status response already carries a completion
result, completeConversion returns after the status request alone, stores
that result, and a second call on the resulting state behaves
identically: no finalize (complete-endpoint) request is ever issued and
both calls yield the identical artifact. -/
theorem C6_ensureCompleted_idempotent (st : ConverterState) (env : ServerResponses)
    (data : StatusResponse) (ci : CompletionInfo)
    (henv : env.statusResp = .ok data)
    (hs : data.status = "success")
    (hci : data.session_status.completion_info = some ci) :
    (completeConversion st env).2 = [Request.status st.sessionId] ∧
    (completeConversion (completeConversion st env).1 env).2
      = [Request.status st.sessionId] ∧
    ((completeConversion st env).2
        ++ (completeConversion (completeConversion st env).1 env).2).countP
        (fun r => isCompleteReq r) = 0 ∧
    (completeConversion st env).1.currentResult = some ci.result ∧
    (completeConversion (completeConversion st env).1 env).1.currentResult
      = some ci.result := by
  have hone : ∀ s : ConverterState,
      (completeConversion s env).2 = [Request.status s.sessionId] ∧
      (completeConversion s env).1.currentResult = some ci.result := by
    intro s
    constructor <;> simp [completeConversion, henv, hs, hci, addToast]
  have hsid : (completeConversion st env).1.sessionId = st.sessionId :=
    completeConversion_sessionId st env
  refine ⟨(hone st).1, ?_, ?_, (hone st).2, (hone _).2⟩
  · rw [(hone _).1, hsid]
  · rw [(hone st).1, (hone _).1]
    simp [isCompleteReq]

theorem C6_witness :
    (completeConversion activeState envStatusCompleted).2
      = [Request.status (some "sess-1")] ∧
    (completeConversion (completeConversion activeState envStatusCompleted).1
        envStatusCompleted).2
      = [Request.status (some "sess-1")] ∧
    ((completeConversion activeState envStatusCompleted).2
        ++ (completeConversion (completeConversion activeState envStatusCompleted).1
            envStatusCompleted).2).countP (fun r => isCompleteReq r) = 0 ∧
    (completeConversion activeState envStatusCompleted).1.currentResult = some "<done/>" ∧
    (completeConversion (completeConversion activeState envStatusCompleted).1
        envStatusCompleted).1.currentResult = some "<done/>" :=
  C6_ensureCompleted_idempotent activeState envStatusCompleted completedStatusResponse
    (CompletionInfo.mk "<done/>") rfl rfl rfl

/-- C7 confirmed: for every structured (object-valued) option, the value
rendered into the option button dataset is the JSON.stringify image, and
clicking that button parses it back and records in history a choice that
is structurally equal to the original option. -/
theorem C7_structured_choice_roundtrip (fs : List (String × Json)) (st : ConverterState)
    (env : ServerResponses) (data : ResolveResponse) (dec : Decision)
    (hopt : dec.options = [Json.obj fs])
    (henv : env.resolveResp = .ok data)
    (hs : data.status = "success") :
    (renderDecision st dec).optionValues = [serializeOption (Json.obj fs)] ∧
    (clickOption (renderDecision st dec) env 0).1.conversionHistory
      = st.conversionHistory ++ [⟨dec.id, Json.obj fs⟩] := by
  have hov : (renderDecision st dec).optionValues = [serializeOption (Json.obj fs)] := by
    simp [renderDecision, hopt]
  refine ⟨hov, ?_⟩
  have hclick : clickOption (renderDecision st dec) env 0
      = resolveDecision (renderDecision st dec) env dec.id
          (serializeOption (Json.obj fs)) := by
    simp [clickOption, renderDecision, hopt]
  rw [hclick, resolveDecision_history]
  have hrep : resolveReported env.resolveResp = true := by
    simp [henv, resolveReported, hs]
  rw [if_pos hrep, parseChoice_serializeOption_obj]
  rfl

theorem C7_witness :
    (renderDecision activeState structuredDecision).optionValues
      = [serializeOption (Json.obj structuredOptionFields)] ∧
    (clickOption (renderDecision activeState structuredDecision) envResolveActive 0).1.conversionHistory
      = activeState.conversionHistory
          ++ [⟨"dec-7", Json.obj structuredOptionFields⟩] :=
  C7_structured_choice_roundtrip structuredOptionFields activeState envResolveActive
    activeResolveResponse structuredDecision rfl rfl rfl

/-- C8 confirmed: a resolve round trip whose response is a failure (server
failure body or rejected fetch) leaves history, the pending-count display,
the session id and the decision container unchanged, issues exactly the
one resolve submission (no automatic retry), and surfaces the failure as
one error toast. -/
theorem C8_failed_resolve_not_applied (st : ConverterState) (env : ServerResponses)
    (d c : String) (hfail : resolveReported env.resolveResp = false) :
    (resolveDecision st env d c).1.conversionHistory = st.conversionHistory ∧
    (resolveDecision st env d c).1.pendingCountText = st.pendingCountText ∧
    (resolveDecision st env d c).1.sessionId = st.sessionId ∧
    (resolveDecision st env d c).1.decisionContainerVisible
      = st.decisionContainerVisible ∧
    (resolveDecision st env d c).2
      = [Request.resolve st.sessionId d (parseChoice c) st.storePreferenceChecked] ∧
    (resolveDecision st env d c).1.toasts
      = st.toasts ++ [(resolveErrText env.resolveResp, "error")] := by
  obtain ⟨h1, h2⟩ := resolveDecision_failed st env d c hfail
  refine ⟨?_, ?_, ?_, ?_, h2, ?_⟩ <;> simp [h1, addToast]

theorem C8_witness :
    (resolveDecision renderedState envResolveFailure "dec-1" "keep").1.conversionHistory
      = renderedState.conversionHistory ∧
    (resolveDecision renderedState envResolveFailure "dec-1" "keep").1.pendingCountText
      = renderedState.pendingCountText ∧
    (resolveDecision renderedState envResolveFailure "dec-1" "keep").1.sessionId
      = renderedState.sessionId ∧
    (resolveDecision renderedState envResolveFailure "dec-1" "keep").1.decisionContainerVisible
      = renderedState.decisionContainerVisible ∧
    (resolveDecision renderedState envResolveFailure "dec-1" "keep").2
      = [Request.resolve renderedState.sessionId "dec-1" (parseChoice "keep")
          renderedState.storePreferenceChecked] ∧
    (resolveDecision renderedState envResolveFailure "dec-1" "keep").1.toasts
      = renderedState.toasts ++ [(resolveErrText envResolveFailure.resolveResp, "error")] :=
  C8_failed_resolve_not_applied renderedState envResolveFailure "dec-1" "keep" (by decide)

/-- C9: as stated the claim fails on its isolation half.  Starting a
second session from the state the first (completed) session left behind
stores the new distinct session id, but the client-side history still
holds the first session entry: the second session does not begin with an
empty history. -/
theorem C9_counterexample :
    (startInteractiveConversion completedState envStartSecond).1.sessionId
      = some "sess-2" ∧
    (startInteractiveConversion completedState envStartSecond).1.conversionHistory
      = [⟨"dec-1", Json.str "keep"⟩] := by decide

/-- C9 amended: start() stores whatever session id the server assigns
(distinctness is the server's doing) but never resets conversionHistory:
on every path through startInteractiveConversion the history is exactly
the history before the call, so a second session inherits the prior
session client-side history instead of starting empty. -/
theorem C9_start_keeps_history (st : ConverterState) (env : ServerResponses) :
    (startInteractiveConversion st env).1.conversionHistory = st.conversionHistory :=
  startInteractiveConversion_history st env

/-- C10 confirmed: the choice-parsing step is total; a choice string that
fails JSON parsing (in particular one that starts with a brace or bracket
but is not valid JSON) is kept as the raw string, submitted as such, and,
when the resolve succeeds, recorded in history unchanged. -/
theorem C10_parse_failure_keeps_raw_string (s : String) (st : ConverterState)
    (env : ServerResponses) (d : String)
    (hbad : jsonParse s.toList = none) :
    parseChoice s = Json.str s ∧
    ((resolveDecision st env d s).2).head?
      = some (Request.resolve st.sessionId d (Json.str s) st.storePreferenceChecked) ∧
    (resolveReported env.resolveResp = true →
      (resolveDecision st env d s).1.conversionHistory
        = st.conversionHistory ++ [⟨d, Json.str s⟩]) := by
  have hpc : parseChoice s = Json.str s := by
    have hbad2 : jsonParse s.data = none := hbad
    cases hl : s.data with
    | nil => simp [parseChoice, hl]
    | cons c tl =>
      rw [hl] at hbad2
      by_cases hb : c = '\x7b' ∨ c = '['
      · simp [parseChoice, hl, hb, hbad2]
      · simp [parseChoice, hl, hb]
  refine ⟨hpc, ?_, ?_⟩
  · rw [resolveDecision_requests_head, hpc]
  · intro hrep
    rw [resolveDecision_history, if_pos hrep, hpc]

theorem C10_witness :
    parseChoice "\x7boops" = Json.str "\x7boops" ∧
    ((resolveDecision renderedState envResolveActive "dec-1" "\x7boops").2).head?
      = some (Request.resolve renderedState.sessionId "dec-1" (Json.str "\x7boops")
          renderedState.storePreferenceChecked) ∧
    (resolveReported envResolveActive.resolveResp = true →
      (resolveDecision renderedState envResolveActive "dec-1" "\x7boops").1.conversionHistory
        = renderedState.conversionHistory ++ [⟨"dec-1", Json.str "\x7boops"⟩]) :=
  C10_parse_failure_keeps_raw_string "\x7boops" renderedState envResolveActive "dec-1"
    (by decide)
